import Mathlib

/-!
Verification development for a small hotel booking system written in C.

The C program keeps its state in colon-delimited text files (rooms,
bookings, user profiles).  We embed the program at the record level: each
file is a list of typed records, and each C function that reads or
rewrites a file becomes a Lean function on those lists.  The serialized
format round-trips faithfully as long as field values contain neither the
delimiter nor a newline, which the data format assumes.

Modelling conventions, stated once:
* C `float` money values are modelled as `ℚ`.  Every arithmetic operation
  the program performs on them (sums and products of small 2-decimal
  values) is exact in IEEE single precision at the magnitudes involved,
  so the rational model coincides with the float computation there.
* `strcmp`/`strncmp` compare ASCII byte strings; we model them by a
  structural comparison of `List Char`, which agrees on ASCII data.
* `sscanf` with format `"%d-%d-%d"` (resp. `"%d/%d/%d"`) is modelled by
  `scan3`: skip C whitespace, read an optional sign and a digit run for
  each `%d`, and require the literal separator in between; the result
  carries the number of assigned conversions and leaves unassigned
  fields `0`, exactly as the callers' zero-initialised variables do.
* `mktime` is modelled as a proleptic Gregorian conversion at local
  midnight with no daylight-saving adjustment (a fixed-offset timezone):
  it normalises out-of-range month and day fields linearly, which the
  model mirrors.  The current date enters the model as an explicit
  `today` argument, and `time(NULL)` as explicit `now`/`bid` arguments.
-/

namespace Hotel

/-! ## Characters and digits -/

/-- C `isspace` for the characters `sscanf` skips before a `%d`. -/
def isScanSpace (c : Char) : Bool :=
  c = ' ' || c = '\t' || c = '\n' || c = '\r' || c = '\x0b' || c = '\x0c'

/-- Decimal digit test, as in `sscanf`'s `%d` conversion (ASCII codes
48–57). -/
def isDigitC (c : Char) : Bool := 48 ≤ c.toNat && c.toNat ≤ 57

/-- Numeric value of a decimal digit character. -/
def digitVal (c : Char) : Nat := c.toNat - 48

/-- The decimal digit character for a value `0..9`. -/
def digitChar : Nat → Char
  | 0 => '0' | 1 => '1' | 2 => '2' | 3 => '3' | 4 => '4'
  | 5 => '5' | 6 => '6' | 7 => '7' | 8 => '8' | _ => '9'

/-- Accumulating left fold turning a digit run into a number, the way a
`%d` conversion does. -/
def digitsToNat : List Char → Nat → Nat
  | [], acc => acc
  | c :: cs, acc => digitsToNat cs (acc * 10 + digitVal c)

/-- Decimal digits of `n`, most significant first, via fuel-bounded
division by ten (fuel keeps the recursion structural so that the kernel
can evaluate it). -/
def natDigitsAux : Nat → Nat → List Char
  | 0, _ => []
  | fuel + 1, n => if n < 10 then [digitChar n] else natDigitsAux fuel (n / 10) ++ [digitChar (n % 10)]

/-- Decimal digits of `n`, most significant first. -/
def natDigits (n : Nat) : List Char := natDigitsAux (n + 1) n

/-! ## `sscanf`-style integer scanning -/

/-- Read a digit run as a natural number; fails when no digit is
present, as a `%d` conversion does. -/
def readUInt (cs : List Char) : Option (Nat × List Char) :=
  if (cs.takeWhile isDigitC).isEmpty then none
  else some (digitsToNat (cs.takeWhile isDigitC) 0, cs.dropWhile isDigitC)

/-- One `%d` conversion: skip whitespace, then an optional sign and a
digit run. -/
def readInt (cs0 : List Char) : Option (Int × List Char) :=
  match cs0.dropWhile isScanSpace with
  | [] => none
  | c :: rest =>
    if c = '-' then (readUInt rest).map (fun p => (-(p.1 : Int), p.2))
    else if c = '+' then (readUInt rest).map (fun p => ((p.1 : Int), p.2))
    else (readUInt (c :: rest)).map (fun p => ((p.1 : Int), p.2))

/-- `sscanf(s, "%d<sep>%d<sep>%d", &a, &b, &c)`: the first component is
the number of assigned conversions, and unassigned values stay `0`
(matching the callers' zero-initialised locals). -/
def scan3 (sep : Char) (s : String) : Nat × Int × Int × Int :=
  match readInt s.data with
  | none => (0, 0, 0, 0)
  | some (a, r1) =>
    match r1 with
    | [] => (1, a, 0, 0)
    | c :: r2 =>
      if c = sep then
        match readInt r2 with
        | none => (1, a, 0, 0)
        | some (b, r3) =>
          match r3 with
          | [] => (2, a, b, 0)
          | c2 :: r4 =>
            if c2 = sep then
              match readInt r4 with
              | none => (2, a, b, 0)
              | some (cv, _) => (3, a, b, cv)
            else (2, a, b, 0)
      else (1, a, 0, 0)

/-! ## `printf`-style zero-padded formatting -/

/-- Left-pad a digit run with zeros to width `w` (no-op when already
wide enough), as `%0wd` does for non-negative values. -/
def padZeros (w : Nat) (ds : List Char) : List Char :=
  List.replicate (w - ds.length) '0' ++ ds

/-- `sprintf("%0wd", i)`: for negatives the minus sign counts towards
the field width, as in C. -/
def fmtPad (w : Nat) (i : Int) : List Char :=
  if i < 0 then '-' :: padZeros (w - 1) (natDigits (-i).toNat)
  else padZeros w (natDigits i.toNat)

/-- `sprintf(out, "%04d-%02d-%02d", y, m, d)`. -/
def fmtDate (y m d : Int) : String :=
  (fmtPad 4 y ++ '-' :: fmtPad 2 m ++ '-' :: fmtPad 2 d).asString

/-! ## The date utilities (`date_utilities.c`) -/

/-- `parse_date` from `date_utilities.c`: try `YYYY-MM-DD`, then
`DD/MM/YYYY`; on success re-emit as zero-padded `YYYY-MM-DD`, otherwise
produce the sentinel string `"invalid"`. -/
def parse_date (input : String) : String :=
  match scan3 '-' input with
  | (3, y, m, d) => fmtDate y m d
  | _ =>
    match scan3 '/' input with
    | (3, d, m, y) => fmtDate y m d
    | _ => "invalid"

/-- `validate_date` from `date_utilities.c`: a dash triple with year at
least 2024, month 1–12 and day 1–31 (no month-length check). -/
def validate_date (date : String) : Bool :=
  match scan3 '-' date with
  | (3, y, m, d) => decide (2024 ≤ y ∧ 1 ≤ m ∧ m ≤ 12 ∧ 1 ≤ d ∧ d ≤ 31)
  | _ => false

/-! ## `strcmp` on ASCII strings -/

/-- `strcmp` on character lists, comparing code points like the byte
comparison does on ASCII data. -/
def strcmpL : List Char → List Char → Ordering
  | [], [] => .eq
  | [], _ :: _ => .lt
  | _ :: _, [] => .gt
  | a :: as, b :: bs =>
    if a.toNat < b.toNat then .lt
    else if b.toNat < a.toNat then .gt
    else strcmpL as bs

/-- `strcmp` on strings. -/
def scmp (a b : String) : Ordering := strcmpL a.data b.data

/-- `strcmp(a, b) <= 0`. -/
def strLe (a b : String) : Bool :=
  match scmp a b with
  | .gt => false
  | _ => true

/-- `strcmp(a, b) >= 0`. -/
def strGe (a b : String) : Bool :=
  match scmp a b with
  | .lt => false
  | _ => true

/-- `is_date_in_future` from `date_utilities.c`, with the current local
date supplied explicitly: `strcmp(date, today) >= 0`. -/
def is_date_in_future (date today : String) : Bool := strGe date today

/-! ## Calendar arithmetic (the `mktime` model)

Proleptic Gregorian day numbers relative to 1970-01-01, following the
standard era-based civil-date conversion.  `Int.tdiv` mirrors C's
truncating `/` (all its uses below have non-negative operands), and
`Int.fdiv` floors where the algorithm needs flooring for negatives. -/

/-- Days since 1970-01-01 of the civil date `(y, m, d)`; requires
`1 ≤ m ≤ 12` to be meaningful, while `d` may lie outside the month and
extends linearly, exactly as `mktime` normalises `tm_mday`. -/
def daysFromCivil (y m d : Int) : Int :=
  let yy := if m ≤ 2 then y - 1 else y
  let era := yy.fdiv 400
  let yoe := yy - era * 400
  let doy := Int.tdiv (153 * (if 2 < m then m - 3 else m + 9) + 2) 5 + d - 1
  let doe := yoe * 365 + Int.tdiv yoe 4 - Int.tdiv yoe 100 + doy
  era * 146097 + doe - 719468

/-- Civil date `(y, m, d)` of a day number, inverse of `daysFromCivil`. -/
def civilFromDays (z0 : Int) : Int × Int × Int :=
  let z := z0 + 719468
  let era := z.fdiv 146097
  let doe := z - era * 146097
  let yoe := Int.tdiv (doe - Int.tdiv doe 1460 + Int.tdiv doe 36524 - Int.tdiv doe 146096) 365
  let y := yoe + era * 400
  let doy := doe - (365 * yoe + Int.tdiv yoe 4 - Int.tdiv yoe 100)
  let mp := Int.tdiv (5 * doy + 2) 153
  let d := doy - Int.tdiv (153 * mp + 2) 5 + 1
  let m := if mp < 10 then mp + 3 else mp - 9
  (if m ≤ 2 then y + 1 else y, m, d)

/-- Day number of a broken-down date with out-of-range fields
normalised the way `mktime` does: months carry into years (flooring),
days extend linearly. -/
def mkdays (y m d : Int) : Int :=
  daysFromCivil (y + (m - 1).fdiv 12) ((m - 1).emod 12 + 1) d

/-- `mktime` at local midnight in the fixed-offset model: seconds since
the epoch of day `mkdays y m d`. -/
def mktimeSecs (y m d : Int) : Int := 86400 * mkdays y m d

/-- `calculate_duration` from `date_utilities.c`: parse both dates with
`sscanf("%d-%d-%d")` into zero-initialised `struct tm` fields, convert
through `mktime`, and divide the difference by 86400 with C's
truncating division. -/
def calculate_duration (check_in check_out : String) : Int :=
  let a := scan3 '-' check_in
  let b := scan3 '-' check_out
  Int.tdiv (mktimeSecs b.2.1 b.2.2.1 b.2.2.2 - mktimeSecs a.2.1 a.2.2.1 a.2.2.2) (60 * 60 * 24)

/-- `tm_wday` as `mktime` computes it: 1970-01-01 was a Thursday. -/
def weekdayOfDays (days : Int) : Int := (days + 4).emod 7

/-- `get_week_range` from `date_utilities.c`: Monday and Sunday of the
week containing the parsed date, rendered zero-padded.  (On an input the
dash scan cannot fully parse, the C reads indeterminate locals; the
model takes the unparsed components as `0` — no claim depends on that
case.) -/
def get_week_range (date : String) : String × String :=
  let p := scan3 '-' date
  let days := mkdays p.2.1 p.2.2.1 p.2.2.2
  let wday := weekdayOfDays days
  let monday := days + (if wday = 0 then -6 else 1 - wday)
  let render := fun (z : Int) =>
    let c := civilFromDays z
    fmtDate c.1 c.2.1 c.2.2
  (render monday, render (monday + 6))

/-! ## The data model

One record per line of the respective data file, in file order. -/

/-- A line of `data/rooms.txt`:
`room_number:type:price:status:facilities`. -/
structure Room where
  room_number : Int
  type : String
  price : ℚ
  status : String
  facilities : String
deriving DecidableEq

/-- A line of `data/bookings.txt`:
`username:room_number:booking_date:check_in_date:check_out_date:total_price:status:booking_id`. -/
structure Booking where
  username : String
  room_number : Int
  booking_date : String
  check_in_date : String
  check_out_date : String
  total_price : ℚ
  status : String
  booking_id : Int
deriving DecidableEq

/-- A line of `data/user_profiles.txt`:
`username:full_name:id_number:email:address:phone`. -/
structure Profile where
  username : String
  full_name : String
  id_number : String
  email : String
  address : String
  phone : String
deriving DecidableEq

/-- The persisted collections the booking engine touches. -/
structure SysState where
  rooms : List Room
  bookings : List Booking
  profiles : List Profile
deriving DecidableEq

/-- The five seed rooms written by the file bootstrap on first run. -/
def seedRooms : List Room :=
  [ ⟨101, "Single", 100, "Available", "WiFi,TV,AC"⟩,
    ⟨102, "Double", 150, "Available", "WiFi,TV,AC,Meal Service"⟩,
    ⟨103, "Suite", 300, "Available", "WiFi,TV,AC,Meal Service,Jacuzzi"⟩,
    ⟨104, "Single", 120, "Available", "WiFi,TV,AC,Balcony"⟩,
    ⟨105, "Double", 180, "Available", "WiFi,TV,AC,Meal Service,Balcony"⟩ ]

/-- The state after the file bootstrap: seed rooms, no bookings, no
profiles. -/
def initState : SysState := ⟨seedRooms, [], []⟩

/-! ## Availability (`validation.c`) -/

/-- The interval test inside `is_room_available`: the requested window
`[ci, co)` overlaps the stored window `[eci, eco)` iff not
(`strcmp(co, eci) <= 0` or `strcmp(ci, eco) >= 0`). -/
def datesOverlap (ci co eci eco : String) : Bool :=
  !(strLe co eci || strGe ci eco)

/-- Does this stored booking block the requested window?  Same room,
status `active`, and overlapping dates. -/
def bookingBlocks (rn : Int) (ci co : String) (b : Booking) : Bool :=
  decide (b.room_number = rn) && decide (b.status = "active") &&
    datesOverlap ci co b.check_in_date b.check_out_date

/-- `is_room_available` from `validation.c`: scan every stored booking
and report unavailable at the first active one for the same room whose
dates overlap (the early `return false` is equivalent to this
conjunction over the list). -/
def is_room_available (bookings : List Booking) (rn : Int) (ci co : String) : Bool :=
  bookings.all (fun b => !(bookingBlocks rn ci co b))

/-! ## Profiles and room lookup -/

/-- `get_user_profile` from `file_operations.c`, restricted to the two
fields the booking path reads: the first profile row with a matching
username yields `(full_name, id_number)`, and a missing row yields empty
strings. -/
def get_user_profile : List Profile → String → String × String
  | [], _ => ("", "")
  | p :: ps, u => if p.username = u then (p.full_name, p.id_number) else get_user_profile ps u

/-- The price scan inside `on_book_room_clicked`: price of the first
room row with the given number (the loop breaks at the first match). -/
def findRoomPrice : List Room → Int → Option ℚ
  | [], _ => none
  | r :: rs, rn => if r.room_number = rn then some r.price else findRoomPrice rs rn

/-! ## Booking creation (`on_book_room_clicked`) -/

/-- Outcome of a booking request, one constructor per status message of
`on_book_room_clicked` (after a user is logged in and a room row is
selected). -/
inductive BookResult where
  | invalidDateFormat
  | checkoutNotAfterCheckin
  | checkinInPast
  | roomUnavailable
  | profileIncomplete
  | success (booking_id : Int) (nights : Int) (total : ℚ)
deriving DecidableEq

/-- Is the outcome one of the five validation failures? -/
def BookResult.isFailure : BookResult → Bool
  | .success _ _ _ => false
  | _ => true

/-- The booking path of `on_book_room_clicked`: parse and validate the
dates, check availability and profile completeness in the source's
order, then append the booking row and set every room row with the
booked number to `Booked`.  The GUI environment enters as explicit
arguments: `today` is the current date `is_date_in_future` compares
against, `nowStr` the `strftime`d creation timestamp, and `bid` the
time-derived booking id. -/
def book (s : SysState) (user : String) (rn : Int) (checkin checkout : String)
    (today nowStr : String) (bid : Int) : BookResult × SysState :=
  let fin := parse_date checkin
  let fout := parse_date checkout
  if fin = "invalid" ∨ fout = "invalid" then (.invalidDateFormat, s)
  else if strGe fin fout then (.checkoutNotAfterCheckin, s)
  else if !is_date_in_future fin today then (.checkinInPast, s)
  else if !is_room_available s.bookings rn fin fout then (.roomUnavailable, s)
  else
    let prof := get_user_profile s.profiles user
    if prof.1 = "" ∨ prof.2 = "" then (.profileIncomplete, s)
    else
      let nights := calculate_duration fin fout
      let price := ((findRoomPrice s.rooms rn).map (fun p => p * ((nights : Int) : ℚ))).getD 0
      let b : Booking := ⟨user, rn, nowStr, fin, fout, price, "active", bid⟩
      (.success bid nights price,
        ⟨s.rooms.map (fun r => if r.room_number = rn then { r with status := "Booked" } else r),
         s.bookings ++ [b],
         s.profiles⟩)

/-! ## Cancellation (`on_cancel_booking_clicked`) -/

/-- The read loop of `on_cancel_booking_clicked`: every stored row whose
id matches has its status overwritten with `canceled`; all rows are kept
and written back in order. -/
def cancelLoop (bid : Int) : List Booking → List Booking
  | [] => []
  | b :: bs =>
    (if b.booking_id = bid then { b with status := "canceled" } else b) :: cancelLoop bid bs

/-- `on_cancel_booking_clicked` after a booking row is selected: rewrite
the booking file with matching rows marked `canceled`, then look up the
first row with the matching id and, when one exists, rewrite the room
file with that room's status set to `Available` unconditionally. -/
def cancel (s : SysState) (bid : Int) : SysState :=
  let bs := cancelLoop bid s.bookings
  match bs.find? (fun b => decide (b.booking_id = bid)) with
  | some b =>
    ⟨s.rooms.map (fun r => if r.room_number = b.room_number then { r with status := "Available" } else r),
     bs, s.profiles⟩
  | none => ⟨s.rooms, bs, s.profiles⟩

/-! ## Profile upsert (`save_user_profile`) -/

/-- `save_user_profile`: replace every profile row with a matching
username by the new row, or append it when none matches. -/
def saveProfile (s : SysState) (u fn idn em ad ph : String) : SysState :=
  let p : Profile := ⟨u, fn, idn, em, ad, ph⟩
  if s.profiles.any (fun q => decide (q.username = u)) then
    ⟨s.rooms, s.bookings, s.profiles.map (fun q => if q.username = u then p else q)⟩
  else
    ⟨s.rooms, s.bookings, s.profiles ++ [p]⟩

/-! ## Revenue queries (`booking_operations.c`) -/

/-- The date portion of a booking timestamp: `strncpy` of the first ten
characters. -/
def date10 (sIn : String) : String := (sIn.data.take 10).asString

/-- `strncmp(a, b, 10) == 0` on NUL-free strings. -/
def strnEq10 (a b : String) : Bool := decide (a.data.take 10 = b.data.take 10)

/-- `calculate_daily_revenue`: fold over the booking rows, adding the
total price of each row that is `active` and whose booking date starts
with the queried date. -/
def calculate_daily_revenue (bookings : List Booking) (date : String) : ℚ :=
  bookings.foldl
    (fun acc b =>
      if strnEq10 b.booking_date date && decide (b.status = "active") then acc + b.total_price
      else acc)
    0

/-- `calculate_weekly_revenue`: compute the Monday–Sunday range of the
queried date's week, then fold over the booking rows, adding rows that
are `active` and whose booking-date portion lies within the range
inclusively. -/
def calculate_weekly_revenue (bookings : List Booking) (date : String) : ℚ :=
  let wr := get_week_range date
  bookings.foldl
    (fun acc b =>
      if strGe (date10 b.booking_date) wr.1 && strLe (date10 b.booking_date) wr.2 &&
          decide (b.status = "active") then acc + b.total_price
      else acc)
    0

/-! ## Reachable states -/

/-- States reachable from the bootstrapped system by the operations that
touch the three collections: booking, cancellation, and profile upsert. -/
inductive Reachable : SysState → Prop
  | init : Reachable initState
  | book (s : SysState) (u : String) (rn : Int) (ci co today nowStr : String) (bid : Int) :
      Reachable s → Reachable (book s u rn ci co today nowStr bid).2
  | cancel (s : SysState) (bid : Int) : Reachable s → Reachable (cancel s bid)
  | saveProfile (s : SysState) (u fn idn em ad ph : String) :
      Reachable s → Reachable (saveProfile s u fn idn em ad ph)

/-! ## Derived notions and concrete fixtures used by the statements -/

/-- Availability as the booking screen queries it: the query reads only
the booking store, never the room rows. -/
def availQuery (s : SysState) (rn : Int) (ci co : String) : Bool :=
  is_room_available s.bookings rn ci co

/-- The no-overlap invariant: any two stored bookings for the same room
that are both `active` have non-overlapping `[check_in, check_out)`
windows. -/
def NoOverlapInv (bs : List Booking) : Prop :=
  bs.Pairwise (fun a b =>
    a.room_number = b.room_number → a.status = "active" → b.status = "active" →
      datesOverlap a.check_in_date a.check_out_date b.check_in_date b.check_out_date = false)

/-- The per-row effect of the cancellation read loop on a row, for
stating what `cancelLoop` does: a matching id gets its status
overwritten with `canceled`, any other row is kept as is. -/
def markCanceled (bid : Int) (b : Booking) : Booking :=
  if b.booking_id = bid then { b with status := "canceled" } else b

/-- The per-row effect of the room rewrite after a cancellation: the
referenced room's status becomes `Available`. -/
def setAvailable (rn : Int) (r : Room) : Room :=
  if r.room_number = rn then { r with status := "Available" } else r

/-- The canonical zero-padded `DD/MM/YYYY` shape, for stating the
slash-format round trip. -/
def fmtSlashDate (d m y : Int) : String :=
  (fmtPad 2 d ++ '/' :: fmtPad 2 m ++ '/' :: fmtPad 4 y).asString

/-- A complete profile row, for concrete booking runs. -/
def profAlice : Profile :=
  ⟨"alice", "Alice Smith", "ID100", "a@example.com", "1 Main St", "5551234567"⟩

/-- Seed rooms, no bookings, one complete profile. -/
def demoState : SysState := ⟨seedRooms, [], [profAlice]⟩

/-- An active $100 booking created on 2025-06-02 at 10:00:00. -/
def demoBookingA : Booking :=
  ⟨"alice", 101, "2025-06-02 10:00:00", "2025-06-10", "2025-06-12", 100, "active", 1⟩

/-- A canceled $50 booking created on 2025-06-03 at 09:00:00. -/
def demoBookingB : Booking :=
  ⟨"bob", 102, "2025-06-03 09:00:00", "2025-06-11", "2025-06-13", 50, "canceled", 2⟩

/-- A state holding one active booking for room 101 over
`[2025-06-01, 2025-06-03)`. -/
def overlapState : SysState :=
  ⟨seedRooms, [⟨"alice", 101, "2025-05-01 09:00:00", "2025-06-01", "2025-06-03", 200, "active", 7⟩],
   [profAlice]⟩

/-- One `Booked` room and one already-canceled booking referencing it. -/
def canceledState : SysState :=
  ⟨[⟨101, "Single", 100, "Booked", "WiFi,TV,AC"⟩],
   [⟨"alice", 101, "2025-05-01 09:00:00", "2025-06-01", "2025-06-03", 200, "canceled", 7⟩], []⟩

/-- Reachability chain for the cancellation counterexample: create a
profile, book room 101, cancel that booking. -/
def exS1 : SysState :=
  saveProfile initState "alice" "Alice Smith" "ID100" "a@example.com" "1 Main St" "5551234567"

/-- Book room 101 for `[2025-06-01, 2025-06-03)` as booking 7. -/
def exS2 : SysState :=
  (book exS1 "alice" 101 "2025-06-01" "2025-06-03" "2025-05-01" "2025-05-01 09:00:00" 7).2

/-- Cancel booking 7. -/
def exS3 : SysState := cancel exS2 7

/-- Re-book room 101 for `[2025-06-10, 2025-06-12)` as booking 8: the
room row reads `Booked` again while booking 7 stays `canceled`. -/
def exS4 : SysState :=
  (book exS3 "alice" 101 "2025-06-10" "2025-06-12" "2025-05-02" "2025-05-02 09:00:00" 8).2

/-- A single Available room next to a complete profile. -/
def stW1 : SysState := ⟨[⟨101, "Single", 100, "Available", "WiFi,TV,AC"⟩], [], [profAlice]⟩

/-- The same state with the room's status flag flipped to `Booked`. -/
def stW2 : SysState := ⟨[⟨101, "Single", 100, "Booked", "WiFi,TV,AC"⟩], [], [profAlice]⟩

/-! # Lemmas

## Digit runs and their decimal values -/

theorem isDigitC_digitChar {k : Nat} (h : k < 10) : isDigitC (digitChar k) = true := by
  interval_cases k <;> decide

theorem digitVal_digitChar {k : Nat} (h : k < 10) : digitVal (digitChar k) = k := by
  interval_cases k <;> decide

theorem digitsToNat_append (l1 l2 : List Char) (acc : Nat) :
    digitsToNat (l1 ++ l2) acc = digitsToNat l2 (digitsToNat l1 acc) := by
  induction l1 generalizing acc with
  | nil => rfl
  | cons c cs ih => simp [digitsToNat, ih]

theorem natDigitsAux_all (fuel : Nat) : ∀ n, n < fuel → (natDigitsAux fuel n).all isDigitC = true := by
  induction fuel with
  | zero => intro n h; omega
  | succ f ih =>
    intro n h
    by_cases h10 : n < 10
    · simp [natDigitsAux, h10, isDigitC_digitChar h10]
    · have hlt : n / 10 < f := by
        have hx : n / 10 < n := Nat.div_lt_self (by omega) (by omega)
        omega
      simp [natDigitsAux, h10, List.all_append, ih _ hlt,
        isDigitC_digitChar (Nat.mod_lt n (by omega))]

theorem natDigitsAux_ne_nil (fuel : Nat) : ∀ n, n < fuel → natDigitsAux fuel n ≠ [] := by
  induction fuel with
  | zero => intro n h; omega
  | succ f _ =>
    intro n _
    by_cases h10 : n < 10 <;> simp [natDigitsAux, h10]

theorem natDigitsAux_val (fuel : Nat) : ∀ n, n < fuel → digitsToNat (natDigitsAux fuel n) 0 = n := by
  induction fuel with
  | zero => intro n h; omega
  | succ f ih =>
    intro n h
    by_cases h10 : n < 10
    · simp [natDigitsAux, h10, digitsToNat, digitVal_digitChar h10]
    · have hlt : n / 10 < f := by
        have hx : n / 10 < n := Nat.div_lt_self (by omega) (by omega)
        omega
      have hmod : digitVal (digitChar (n % 10)) = n % 10 :=
        digitVal_digitChar (Nat.mod_lt n (by omega))
      simp [natDigitsAux, h10, digitsToNat_append, ih _ hlt, digitsToNat, hmod]
      omega

theorem natDigits_all (n : Nat) : (natDigits n).all isDigitC = true :=
  natDigitsAux_all (n + 1) n (Nat.lt_succ_self n)

theorem natDigits_ne_nil (n : Nat) : natDigits n ≠ [] :=
  natDigitsAux_ne_nil (n + 1) n (Nat.lt_succ_self n)

theorem natDigits_val (n : Nat) : digitsToNat (natDigits n) 0 = n :=
  natDigitsAux_val (n + 1) n (Nat.lt_succ_self n)

theorem digitsToNat_zeros (k : Nat) : digitsToNat (List.replicate k '0') 0 = 0 := by
  induction k with
  | zero => rfl
  | succ j ih => simpa [List.replicate, digitsToNat, digitVal] using ih

theorem padZeros_all (w : Nat) (ds : List Char) (h : ds.all isDigitC = true) :
    (padZeros w ds).all isDigitC = true := by
  rw [padZeros, List.all_append, h, Bool.and_true, List.all_eq_true]
  intro c hc
  rw [List.eq_of_mem_replicate hc]
  decide

theorem padZeros_ne_nil (w : Nat) (ds : List Char) (h : ds ≠ []) : padZeros w ds ≠ [] := by
  intro hcon
  exact h (List.append_eq_nil.mp hcon).2

theorem padZeros_val (w : Nat) (n : Nat) : digitsToNat (padZeros w (natDigits n)) 0 = n := by
  simp [padZeros, digitsToNat_append, digitsToNat_zeros, natDigits_val]

/-! ## Scanning a rendered digit run back -/

/-- A digit character is not `sscanf` whitespace and not a sign. -/
theorem digit_shape {c : Char} (h : isDigitC c = true) :
    isScanSpace c = false ∧ c ≠ '-' ∧ c ≠ '+' := by
  rw [isDigitC, Bool.and_eq_true, decide_eq_true_eq, decide_eq_true_eq] at h
  have hne : ∀ d : Char, d.toNat < 48 → c ≠ d := by
    intro d hd he
    rw [he] at h
    omega
  refine ⟨?_, hne '-' (by decide), hne '+' (by decide)⟩
  rw [isScanSpace, decide_eq_false (hne ' ' (by decide)), decide_eq_false (hne '\t' (by decide)),
    decide_eq_false (hne '\n' (by decide)), decide_eq_false (hne '\r' (by decide)),
    decide_eq_false (hne '\x0b' (by decide)), decide_eq_false (hne '\x0c' (by decide))]
  rfl

theorem takeWhile_append_all {p : Char → Bool} :
    ∀ (ds rest : List Char), ds.all p = true →
      (∀ c, rest.head? = some c → p c = false) →
      (ds ++ rest).takeWhile p = ds ∧ (ds ++ rest).dropWhile p = rest := by
  intro ds
  induction ds with
  | nil =>
    intro rest _ hr
    cases rest with
    | nil => simp
    | cons c cs =>
      have hc := hr c rfl
      simp [List.takeWhile_cons, List.dropWhile_cons, hc]
  | cons a as ih =>
    intro rest h hr
    rw [List.all_cons, Bool.and_eq_true] at h
    have hrec := ih rest h.2 hr
    simp [List.takeWhile_cons, List.dropWhile_cons, h.1, hrec.1, hrec.2]

/-- Reading a zero-padded digit run followed by a non-digit remainder
recovers the rendered number and the remainder. -/
theorem readUInt_pad (n w : Nat) (rest : List Char)
    (hr : ∀ c, rest.head? = some c → isDigitC c = false) :
    readUInt (padZeros w (natDigits n) ++ rest) = some (n, rest) := by
  obtain ⟨ht, hd⟩ :=
    takeWhile_append_all (padZeros w (natDigits n)) rest (padZeros_all w _ (natDigits_all n)) hr
  rw [readUInt, ht, hd, padZeros_val]
  simp [List.isEmpty_iff, padZeros_ne_nil w _ (natDigits_ne_nil n)]

/-- The `%d` conversion on a zero-padded digit run. -/
theorem readInt_pad (n w : Nat) (rest : List Char)
    (hr : ∀ c, rest.head? = some c → isDigitC c = false) :
    readInt (padZeros w (natDigits n) ++ rest) = some ((n : Int), rest) := by
  cases hP : padZeros w (natDigits n) with
  | nil => exact absurd hP (padZeros_ne_nil w _ (natDigits_ne_nil n))
  | cons x xs =>
    have hx : isDigitC x = true := by
      have hall := padZeros_all w _ (natDigits_all n)
      rw [hP, List.all_cons, Bool.and_eq_true] at hall
      exact hall.1
    obtain ⟨hsp, hminus, hplus⟩ := digit_shape hx
    have hread := readUInt_pad n w rest hr
    rw [hP] at hread
    rw [readInt]
    simp only [List.cons_append, List.dropWhile_cons, hsp]
    simp only [Bool.false_eq_true, if_false]
    simp only [List.cons_append] at hread
    simp [hminus, hplus, hread]

/-! ## Scanning whole rendered dates -/

theorem asString_data (l : List Char) : (l.asString).data = l := rfl

theorem fmtPad_natCast (w n : Nat) : fmtPad w ((n : Int)) = padZeros w (natDigits n) := by
  rw [fmtPad, if_neg (by omega), Int.toNat_natCast]

theorem head?_cons_not_digit {sep : Char} (hsep : isDigitC sep = false) (l : List Char) :
    ∀ x, (sep :: l).head? = some x → isDigitC x = false := by
  intro x hx
  rw [List.head?_cons, Option.some.injEq] at hx
  rw [← hx]
  exact hsep

theorem scan3_pad (sep : Char) (hsep : isDigitC sep = false) (w1 w2 w3 a b c : Nat) :
    scan3 sep ((padZeros w1 (natDigits a) ++
      sep :: (padZeros w2 (natDigits b) ++ sep :: padZeros w3 (natDigits c))).asString) =
      (3, (a : Int), (b : Int), (c : Int)) := by
  have h1 := readInt_pad a w1 (sep :: (padZeros w2 (natDigits b) ++ sep :: padZeros w3 (natDigits c)))
    (head?_cons_not_digit hsep _)
  have h2 := readInt_pad b w2 (sep :: padZeros w3 (natDigits c)) (head?_cons_not_digit hsep _)
  have h3 := readInt_pad c w3 [] (by intro x hx; simp at hx)
  rw [List.append_nil] at h3
  simp [scan3, asString_data, h1, h2, h3]

theorem scan3_pad_wrong_sep (sep sep' : Char) (hne : sep' ≠ sep) (hd : isDigitC sep' = false)
    (w1 a : Nat) (rest : List Char) :
    scan3 sep ((padZeros w1 (natDigits a) ++ sep' :: rest).asString) = (1, (a : Int), 0, 0) := by
  have h1 := readInt_pad a w1 (sep' :: rest) (head?_cons_not_digit hd _)
  simp [scan3, asString_data, h1, hne]

theorem scan3_fmtDate (y m d : Nat) :
    scan3 '-' (fmtDate (y : Int) (m : Int) (d : Int)) = (3, (y : Int), (m : Int), (d : Int)) := by
  rw [fmtDate, fmtPad_natCast, fmtPad_natCast, fmtPad_natCast, List.append_assoc,
    List.cons_append]
  exact scan3_pad '-' (by decide) 4 2 2 y m d

theorem scan3_fmtSlash_slash (y m d : Nat) :
    scan3 '/' (fmtSlashDate (d : Int) (m : Int) (y : Int)) = (3, (d : Int), (m : Int), (y : Int)) := by
  rw [fmtSlashDate, fmtPad_natCast, fmtPad_natCast, fmtPad_natCast, List.append_assoc,
    List.cons_append]
  exact scan3_pad '/' (by decide) 2 2 4 d m y

theorem scan3_fmtSlash_dash (y m d : Nat) :
    scan3 '-' (fmtSlashDate (d : Int) (m : Int) (y : Int)) = (1, (d : Int), 0, 0) := by
  rw [fmtSlashDate, fmtPad_natCast, fmtPad_natCast, fmtPad_natCast, List.append_assoc,
    List.cons_append]
  exact scan3_pad_wrong_sep '-' '/' (by decide) (by decide) 2 d _

/-! ## `parse_date` case analysis and round trips -/

theorem parse_date_dash_triple (input : String) (y m d : Int)
    (h : scan3 '-' input = (3, y, m, d)) : parse_date input = fmtDate y m d := by
  simp [parse_date, h]

theorem parse_date_slash_triple (input : String) (y m d : Int)
    (h1 : (scan3 '-' input).1 ≠ 3) (h2 : scan3 '/' input = (3, d, m, y)) :
    parse_date input = fmtDate y m d := by
  unfold parse_date
  split
  · rename_i heq
    exact absurd (by rw [heq]) h1
  · rw [h2]

theorem parse_date_no_triple (input : String)
    (h1 : (scan3 '-' input).1 ≠ 3) (h2 : (scan3 '/' input).1 ≠ 3) :
    parse_date input = "invalid" := by
  unfold parse_date
  split
  · rename_i heq
    exact absurd (by rw [heq]) h1
  · split
    · rename_i heq
      exact absurd (by rw [heq]) h2
    · rfl

theorem parse_date_fmtDate (y m d : Nat) :
    parse_date (fmtDate (y : Int) (m : Int) (d : Int)) = fmtDate (y : Int) (m : Int) (d : Int) :=
  parse_date_dash_triple _ _ _ _ (scan3_fmtDate y m d)

theorem parse_date_fmtSlash (y m d : Nat) :
    parse_date (fmtSlashDate (d : Int) (m : Int) (y : Int)) = fmtDate (y : Int) (m : Int) (d : Int) := by
  have h1 : (scan3 '-' (fmtSlashDate (d : Int) (m : Int) (y : Int))).1 ≠ 3 := by
    rw [scan3_fmtSlash_dash]
    simp
  exact parse_date_slash_triple _ _ _ _ h1 (scan3_fmtSlash_slash y m d)

/-! ## `strcmp` symmetry and the overlap test -/

theorem strcmpL_swap : ∀ a b, strcmpL a b = (strcmpL b a).swap := by
  intro a
  induction a with
  | nil => intro b; cases b <;> rfl
  | cons x xs ih =>
    intro b
    cases b with
    | nil => rfl
    | cons y ys =>
      by_cases h1 : x.toNat < y.toNat
      · have h2 : ¬ y.toNat < x.toNat := by omega
        simp [strcmpL, h1, h2, Ordering.swap]
      · by_cases h2 : y.toNat < x.toNat
        · simp [strcmpL, h1, h2, Ordering.swap]
        · simp [strcmpL, h1, h2, ih ys]

theorem strLe_eq_strGe (a b : String) : strLe a b = strGe b a := by
  rw [strLe, strGe, scmp, scmp, strcmpL_swap a.data b.data]
  cases strcmpL b.data a.data <;> rfl

theorem datesOverlap_comm (ci co eci eco : String) :
    datesOverlap ci co eci eco = datesOverlap eci eco ci co := by
  rw [datesOverlap, datesOverlap, strLe_eq_strGe co eci, strLe_eq_strGe eco ci, Bool.or_comm]

/-! ## Cancellation: loop characterisation -/

theorem markCanceled_room (bid : Int) (b : Booking) :
    (markCanceled bid b).room_number = b.room_number := by
  rw [markCanceled]
  by_cases h : b.booking_id = bid <;> simp [h]

theorem markCanceled_id (bid : Int) (b : Booking) :
    (markCanceled bid b).booking_id = b.booking_id := by
  rw [markCanceled]
  by_cases h : b.booking_id = bid <;> simp [h]

theorem markCanceled_dates (bid : Int) (b : Booking) :
    (markCanceled bid b).check_in_date = b.check_in_date ∧
      (markCanceled bid b).check_out_date = b.check_out_date := by
  rw [markCanceled]
  by_cases h : b.booking_id = bid <;> simp [h]

theorem markCanceled_active (bid : Int) (b : Booking)
    (h : (markCanceled bid b).status = "active") : markCanceled bid b = b := by
  rw [markCanceled] at h ⊢
  by_cases hid : b.booking_id = bid
  · rw [if_pos hid] at h
    simp at h
  · rw [if_neg hid]

theorem markCanceled_eq_self (bid : Int) (b : Booking) (h : b.booking_id = bid → b.status = "canceled") :
    markCanceled bid b = b := by
  rw [markCanceled]
  by_cases hid : b.booking_id = bid
  · rw [if_pos hid]
    have hs := h hid
    cases b
    simp only [Booking.mk.injEq]
    simp_all
  · rw [if_neg hid]

theorem cancelLoop_eq_map (bid : Int) (bs : List Booking) :
    cancelLoop bid bs = bs.map (markCanceled bid) := by
  induction bs with
  | nil => rfl
  | cons b bs ih => rw [cancelLoop, ih, List.map_cons, markCanceled]

theorem cancel_bookings (s : SysState) (bid : Int) :
    (cancel s bid).bookings = s.bookings.map (markCanceled bid) := by
  rw [← cancelLoop_eq_map]
  simp only [cancel]
  split <;> rfl

theorem cancel_profiles (s : SysState) (bid : Int) :
    (cancel s bid).profiles = s.profiles := by
  simp only [cancel]
  split <;> rfl

theorem find?_cancelLoop (bid : Int) (bs : List Booking) :
    (cancelLoop bid bs).find? (fun b => decide (b.booking_id = bid)) =
      (bs.find? (fun b => decide (b.booking_id = bid))).map (markCanceled bid) := by
  rw [cancelLoop_eq_map, List.find?_map]
  have hp : ((fun b => decide (b.booking_id = bid)) ∘ markCanceled bid) =
      (fun b => decide (b.booking_id = bid)) := by
    funext b
    simp [Function.comp, markCanceled_id]
  rw [hp]

theorem cancel_rooms_found (s : SysState) (bid : Int) (b0 : Booking)
    (h : s.bookings.find? (fun b => decide (b.booking_id = bid)) = some b0) :
    (cancel s bid).rooms = s.rooms.map (setAvailable b0.room_number) := by
  simp only [cancel, find?_cancelLoop, h, Option.map_some']
  rw [markCanceled_room]
  rfl

theorem cancel_no_match (s : SysState) (bid : Int)
    (h : s.bookings.find? (fun b => decide (b.booking_id = bid)) = none) :
    cancel s bid = s := by
  have hall := List.find?_eq_none.mp h
  have hmap : s.bookings.map (markCanceled bid) = s.bookings := by
    have hcongr : ∀ b ∈ s.bookings, markCanceled bid b = b := by
      intro b hb
      refine markCanceled_eq_self bid b (fun hid => absurd (by simpa using hall b hb) ?_)
      simp [hid]
    rw [List.map_congr_left hcongr, List.map_id']
  simp only [cancel, find?_cancelLoop, h, Option.map_none', cancelLoop_eq_map, hmap]

/-! ## Availability facts -/

theorem available_no_block {bs : List Booking} {rn : Int} {ci co : String}
    (h : is_room_available bs rn ci co = true) :
    ∀ b ∈ bs, bookingBlocks rn ci co b = false := by
  rw [is_room_available, List.all_eq_true] at h
  intro b hb
  simpa using h b hb

theorem unavailable_of_block {bs : List Booking} {rn : Int} {ci co : String} (b : Booking)
    (hb : b ∈ bs) (hblock : bookingBlocks rn ci co b = true) :
    is_room_available bs rn ci co = false := by
  rw [is_room_available, List.all_eq_false]
  exact ⟨b, hb, by simp [hblock]⟩

/-! ## The no-overlap invariant is preserved -/

theorem saveProfile_bookings (s : SysState) (u fn idn em ad ph : String) :
    (saveProfile s u fn idn em ad ph).bookings = s.bookings := by
  simp only [saveProfile]
  split <;> rfl

theorem book_bookings_cases (s : SysState) (u : String) (rn : Int) (ci co today nowStr : String)
    (bid : Int) :
    (book s u rn ci co today nowStr bid).2.bookings = s.bookings ∨
      (is_room_available s.bookings rn (parse_date ci) (parse_date co) = true ∧
        ∃ price, (book s u rn ci co today nowStr bid).2.bookings =
          s.bookings ++ [⟨u, rn, nowStr, parse_date ci, parse_date co, price, "active", bid⟩]) := by
  simp only [book]
  split_ifs with h1 h2 h3 h4 h5
  · left; rfl
  · left; rfl
  · left; rfl
  · left; rfl
  · left; rfl
  · right
    refine ⟨?_, ⟨_, rfl⟩⟩
    simpa using h4

theorem noOverlapInv_book (s : SysState) (u : String) (rn : Int) (ci co today nowStr : String)
    (bid : Int) (h : NoOverlapInv s.bookings) :
    NoOverlapInv (book s u rn ci co today nowStr bid).2.bookings := by
  rcases book_bookings_cases s u rn ci co today nowStr bid with hcase | ⟨hav, price, hcase⟩
  · rw [NoOverlapInv, hcase]
    exact h
  · rw [NoOverlapInv, hcase, List.pairwise_append]
    refine ⟨h, List.pairwise_singleton _ _, ?_⟩
    intro a ha b hb
    rw [List.mem_singleton] at hb
    subst hb
    intro hroom hactA _hactB
    have hnb := available_no_block hav a ha
    rw [bookingBlocks] at hnb
    simp only [] at hroom
    rw [datesOverlap_comm]
    simp [hroom, hactA] at hnb
    exact hnb

theorem noOverlapInv_cancel (s : SysState) (bid : Int) (h : NoOverlapInv s.bookings) :
    NoOverlapInv (cancel s bid).bookings := by
  rw [NoOverlapInv, cancel_bookings]
  refine List.Pairwise.map _ ?_ h
  intro a b hab hroom hactA hactB
  have ha' := markCanceled_active bid a hactA
  have hb' := markCanceled_active bid b hactB
  rw [ha'] at hroom hactA ⊢
  rw [hb'] at hroom hactB ⊢
  exact hab hroom hactA hactB

theorem reachable_noOverlap (s : SysState) (h : Reachable s) : NoOverlapInv s.bookings := by
  induction h with
  | init => exact List.Pairwise.nil
  | book s u rn ci co today nowStr bid _ ih => exact noOverlapInv_book s u rn ci co today nowStr bid ih
  | cancel s bid _ ih => exact noOverlapInv_cancel s bid ih
  | saveProfile s u fn idn em ad ph _ ih =>
    rw [NoOverlapInv, saveProfile_bookings]
    exact ih

theorem book_overlap_fails (s : SysState) (u : String) (rn : Int) (ci co today nowStr : String)
    (bid : Int)
    (h1 : parse_date ci ≠ "invalid") (h2 : parse_date co ≠ "invalid")
    (h3 : strGe (parse_date ci) (parse_date co) = false)
    (h4 : is_date_in_future (parse_date ci) today = true)
    (h5 : ∃ b ∈ s.bookings, b.room_number = rn ∧ b.status = "active" ∧
      datesOverlap (parse_date ci) (parse_date co) b.check_in_date b.check_out_date = true) :
    book s u rn ci co today nowStr bid = (.roomUnavailable, s) := by
  obtain ⟨b, hb, hbrn, hbact, hbov⟩ := h5
  have hunav : is_room_available s.bookings rn (parse_date ci) (parse_date co) = false :=
    unavailable_of_block b hb (by simp [bookingBlocks, hbrn, hbact, hbov])
  simp only [book]
  rw [if_neg (by simp [h1, h2]), if_neg (by simp [h3]), if_neg (by simp [h4]),
    if_pos (by simp [hunav])]

/-! ## Revenue folds as filtered sums -/

theorem foldl_add_filter (p : Booking → Bool) (f : Booking → ℚ) :
    ∀ (bs : List Booking) (acc : ℚ),
      bs.foldl (fun a b => if p b then a + f b else a) acc =
        acc + ((bs.filter p).map f).sum := by
  intro bs
  induction bs with
  | nil => intro acc; simp
  | cons b bs ih =>
    intro acc
    by_cases hp : p b
    · rw [List.foldl_cons, List.filter_cons_of_pos hp, if_pos hp, ih, List.map_cons,
        List.sum_cons, add_assoc]
    · rw [List.foldl_cons, List.filter_cons_of_neg hp, if_neg hp, ih]

theorem daily_revenue_sum (bs : List Booking) (date : String) :
    calculate_daily_revenue bs date =
      ((bs.filter (fun b => strnEq10 b.booking_date date && decide (b.status = "active"))).map
        Booking.total_price).sum := by
  rw [calculate_daily_revenue, foldl_add_filter, zero_add]

theorem weekly_revenue_sum (bs : List Booking) (date : String) :
    calculate_weekly_revenue bs date =
      ((bs.filter (fun b =>
        strGe (date10 b.booking_date) (get_week_range date).1 &&
          strLe (date10 b.booking_date) (get_week_range date).2 &&
          decide (b.status = "active"))).map Booking.total_price).sum := by
  rw [calculate_weekly_revenue, foldl_add_filter, zero_add]

/-! ## Room price lookups ignore statuses -/

theorem findRoomPrice_congr (r1 r2 : List Room)
    (h : List.Forall₂ (fun a b => a.room_number = b.room_number ∧ a.price = b.price) r1 r2) :
    ∀ rn, findRoomPrice r1 rn = findRoomPrice r2 rn := by
  induction h with
  | nil => intro rn; rfl
  | cons hab _ ih =>
    intro rn
    rw [findRoomPrice, findRoomPrice, hab.1, hab.2, ih rn]

/-! ## Night counts -/

theorem mkdays_eq_daysFromCivil (y m d : Int) (h1 : 1 ≤ m) (h2 : m ≤ 12) :
    mkdays y m d = daysFromCivil y m d := by
  rw [mkdays, Int.fdiv_eq_ediv _ (by norm_num), Int.ediv_eq_zero_of_lt (by omega) (by omega),
    show (m - 1).emod 12 = m - 1 from Int.emod_eq_of_lt (by omega) (by omega)]
  rw [show y + 0 = y by ring, show m - 1 + 1 = m by ring]

theorem duration_eq_day_diff (y1 m1 d1 y2 m2 d2 : Nat)
    (hm1 : 1 ≤ m1) (hm1' : m1 ≤ 12) (hm2 : 1 ≤ m2) (hm2' : m2 ≤ 12) :
    calculate_duration (fmtDate (y1 : Int) (m1 : Int) (d1 : Int)) (fmtDate (y2 : Int) (m2 : Int) (d2 : Int)) =
      daysFromCivil (y2 : Int) (m2 : Int) (d2 : Int) - daysFromCivil (y1 : Int) (m1 : Int) (d1 : Int) := by
  simp only [calculate_duration, scan3_fmtDate, mktimeSecs]
  rw [mkdays_eq_daysFromCivil _ _ _ (by exact_mod_cast hm2) (by exact_mod_cast hm2'),
    mkdays_eq_daysFromCivil _ _ _ (by exact_mod_cast hm1) (by exact_mod_cast hm1')]
  rw [show (86400 : Int) * daysFromCivil (y2 : Int) (m2 : Int) (d2 : Int) -
      86400 * daysFromCivil (y1 : Int) (m1 : Int) (d1 : Int) =
      86400 * (daysFromCivil (y2 : Int) (m2 : Int) (d2 : Int) -
        daysFromCivil (y1 : Int) (m1 : Int) (d1 : Int)) by ring]
  rw [show ((60 : Int) * 60 * 24) = 86400 by norm_num]
  exact Int.mul_tdiv_cancel_left _ (by norm_num)

/-! ## Booking outcome analysis -/

theorem book_fst_rooms_status_irrelevant (r1 r2 : List Room) (bk : List Booking)
    (pf : List Profile)
    (hr : List.Forall₂ (fun a b => a.room_number = b.room_number ∧ a.price = b.price) r1 r2)
    (u : String) (rn : Int) (ci co today nowStr : String) (bid : Int) :
    (book ⟨r1, bk, pf⟩ u rn ci co today nowStr bid).1 =
      (book ⟨r2, bk, pf⟩ u rn ci co today nowStr bid).1 := by
  simp only [book]
  split_ifs <;> try rfl
  rw [findRoomPrice_congr r1 r2 hr rn]

theorem book_success_price (s : SysState) (u : String) (rn : Int) (ci co today nowStr : String)
    (bid : Int) (p : ℚ) (hp : findRoomPrice s.rooms rn = some p)
    (bid2 n : Int) (t : ℚ)
    (hsucc : (book s u rn ci co today nowStr bid).1 = .success bid2 n t) :
    n = calculate_duration (parse_date ci) (parse_date co) ∧
      t = p * ((calculate_duration (parse_date ci) (parse_date co) : Int) : ℚ) ∧
      (book s u rn ci co today nowStr bid).2.bookings =
        s.bookings ++ [⟨u, rn, nowStr, parse_date ci, parse_date co, t, "active", bid⟩] := by
  simp only [book] at hsucc ⊢
  split_ifs at hsucc ⊢ with h1 h2 h3 h4 h5
  rw [hp] at hsucc ⊢
  simp only [Option.map_some', Option.getD_some] at hsucc ⊢
  simp only [BookResult.success.injEq] at hsucc
  obtain ⟨_hb, hn, ht⟩ := hsucc
  refine ⟨hn.symm, ht.symm, by rw [ht]⟩

/-! # Claim theorems -/

/-- C1: No-overlap law.  In every reachable state, any two active
bookings for the same room have non-overlapping `[check_in, check_out)`
windows; and a booking request whose normalized window overlaps some
active booking for the same room (with the earlier date checks passing,
so that the request reaches the availability scan) fails with
`RoomUnavailable` and leaves the state — in particular the booking
store — unchanged. -/
theorem C1_no_overlap_law :
    (∀ s : SysState, Reachable s → NoOverlapInv s.bookings) ∧
    (∀ (s : SysState) (u : String) (rn : Int) (ci co today nowStr : String) (bid : Int),
      parse_date ci ≠ "invalid" → parse_date co ≠ "invalid" →
      strGe (parse_date ci) (parse_date co) = false →
      is_date_in_future (parse_date ci) today = true →
      (∃ b ∈ s.bookings, b.room_number = rn ∧ b.status = "active" ∧
        datesOverlap (parse_date ci) (parse_date co) b.check_in_date b.check_out_date = true) →
      book s u rn ci co today nowStr bid = (.roomUnavailable, s)) :=
  ⟨reachable_noOverlap, book_overlap_fails⟩

/-- Witness for C1 at concrete inputs: the bootstrap state satisfies the
invariant, and booking room 101 over `[2025-06-02, 2025-06-04)` against
an active `[2025-06-01, 2025-06-03)` booking fails with
`RoomUnavailable` and returns the state unchanged. -/
theorem C1_no_overlap_law_witness :
    NoOverlapInv initState.bookings ∧
      book overlapState "bob" 101 ("2025-06-02") ("2025-06-04") ("2025-05-01")
        ("2025-05-01 10:00:00") 8 = (.roomUnavailable, overlapState) :=
  ⟨C1_no_overlap_law.1 initState Reachable.init,
   C1_no_overlap_law.2 overlapState "bob" 101 ("2025-06-02") ("2025-06-04") ("2025-05-01")
     ("2025-05-01 10:00:00") 8 (by decide) (by decide) (by decide) (by decide) (by decide)⟩

/-- C2: Booking validation order and atomicity on failure.  The checks
run in source order — date normalization, checkout-after-checkin,
check-in not in the past, availability, profile completeness — the
first failing check determines the reported error, and on every failure
the whole state (booking store and room store) is unchanged. -/
theorem C2_validation_order_and_atomicity (s : SysState) (u : String) (rn : Int)
    (ci co today nowStr : String) (bid : Int) :
    ((book s u rn ci co today nowStr bid).1 = .invalidDateFormat ↔
      (parse_date ci = "invalid" ∨ parse_date co = "invalid")) ∧
    ((book s u rn ci co today nowStr bid).1 = .checkoutNotAfterCheckin ↔
      (¬(parse_date ci = "invalid" ∨ parse_date co = "invalid") ∧
        strGe (parse_date ci) (parse_date co) = true)) ∧
    ((book s u rn ci co today nowStr bid).1 = .checkinInPast ↔
      (¬(parse_date ci = "invalid" ∨ parse_date co = "invalid") ∧
        strGe (parse_date ci) (parse_date co) = false ∧
        is_date_in_future (parse_date ci) today = false)) ∧
    ((book s u rn ci co today nowStr bid).1 = .roomUnavailable ↔
      (¬(parse_date ci = "invalid" ∨ parse_date co = "invalid") ∧
        strGe (parse_date ci) (parse_date co) = false ∧
        is_date_in_future (parse_date ci) today = true ∧
        is_room_available s.bookings rn (parse_date ci) (parse_date co) = false)) ∧
    ((book s u rn ci co today nowStr bid).1 = .profileIncomplete ↔
      (¬(parse_date ci = "invalid" ∨ parse_date co = "invalid") ∧
        strGe (parse_date ci) (parse_date co) = false ∧
        is_date_in_future (parse_date ci) today = true ∧
        is_room_available s.bookings rn (parse_date ci) (parse_date co) = true ∧
        ((get_user_profile s.profiles u).1 = "" ∨ (get_user_profile s.profiles u).2 = ""))) ∧
    ((book s u rn ci co today nowStr bid).1.isFailure = true →
      (book s u rn ci co today nowStr bid).2 = s) := by
  simp only [book]
  split_ifs with h1 h2 h3 h4 h5 <;>
    refine ⟨by simp_all [BookResult.isFailure], by simp_all [BookResult.isFailure],
      by simp_all [BookResult.isFailure], by simp_all [BookResult.isFailure],
      by simp_all [BookResult.isFailure], by simp_all [BookResult.isFailure]⟩

/-- Witness for C2 at a concrete input: an unparsable check-in date is
reported as the date-format error and leaves the state unchanged. -/
theorem C2_validation_order_and_atomicity_witness :
    (book demoState "alice" 101 ("bad-date-x") ("2025-06-03") ("2025-05-01") ("n") 7).1 =
        .invalidDateFormat ∧
      (book demoState "alice" 101 ("bad-date-x") ("2025-06-03") ("2025-05-01") ("n") 7).2 =
        demoState :=
  ⟨((C2_validation_order_and_atomicity demoState "alice" 101 ("bad-date-x") ("2025-06-03")
      ("2025-05-01") ("n") 7).1).mpr (by decide),
   ((C2_validation_order_and_atomicity demoState "alice" 101 ("bad-date-x") ("2025-06-03")
      ("2025-05-01") ("n") 7).2.2.2.2.2) (by decide)⟩

/-- C3: Cancel postcondition.  Cancellation rewrites the booking store
as a whole-collection map that flips matching ids to `canceled` and
keeps every other row unchanged (no row is removed), the room referenced
by the first matching booking has its status set to `Available`
unconditionally, and an id matching no booking leaves both stores
unchanged. -/
theorem C3_cancel_postcondition (s : SysState) (bid : Int) :
    (cancel s bid).bookings = s.bookings.map (markCanceled bid) ∧
    (cancel s bid).bookings.length = s.bookings.length ∧
    (cancel s bid).profiles = s.profiles ∧
    (∀ b0, s.bookings.find? (fun b => decide (b.booking_id = bid)) = some b0 →
      (cancel s bid).rooms = s.rooms.map (setAvailable b0.room_number)) ∧
    (s.bookings.find? (fun b => decide (b.booking_id = bid)) = none → cancel s bid = s) := by
  refine ⟨cancel_bookings s bid, ?_, cancel_profiles s bid, ?_, cancel_no_match s bid⟩
  · rw [cancel_bookings, List.length_map]
  · intro b0 h
    exact cancel_rooms_found s bid b0 h

/-- Witness for C3 at a concrete state: cancelling booking 7 marks it
canceled and sets room 101 back to `Available`. -/
theorem C3_cancel_postcondition_witness :
    (cancel overlapState 7).bookings = overlapState.bookings.map (markCanceled 7) ∧
      (cancel overlapState 7).rooms =
        overlapState.rooms.map
          (setAvailable (Booking.room_number
            ⟨"alice", 101, ("2025-05-01 09:00:00"), ("2025-06-01"), ("2025-06-03"), 200,
              ("active"), 7⟩)) :=
  ⟨(C3_cancel_postcondition overlapState 7).1,
   (C3_cancel_postcondition overlapState 7).2.2.2.1
     ⟨"alice", 101, ("2025-05-01 09:00:00"), ("2025-06-01"), ("2025-06-03"), 200, ("active"), 7⟩
     rfl⟩

/-- C4 counterexample: a reachable state (profile, book room 101, cancel
that booking, book room 101 again) holds an already-canceled booking 7,
yet cancelling id 7 again changes the state — it flips room 101's status
from `Booked` back to `Available` even though booking 8 is active. -/
theorem C4_idempotent_cancel_counterexample :
    Reachable exS4 ∧
      (∃ b ∈ exS4.bookings, b.booking_id = 7 ∧ b.status = "canceled") ∧
      (cancel exS4 7).rooms.map Room.status ≠ exS4.rooms.map Room.status := by
  refine ⟨?_, by decide, by decide⟩
  exact Reachable.book exS3 "alice" 101 ("2025-06-10") ("2025-06-12") ("2025-05-02")
    ("2025-05-02 09:00:00") 8
    (Reachable.cancel exS2 7
      (Reachable.book exS1 "alice" 101 ("2025-06-01") ("2025-06-03") ("2025-05-01")
        ("2025-05-01 09:00:00") 7
        (Reachable.saveProfile initState "alice" "Alice Smith" "ID100" "a@example.com"
          "1 Main St" "5551234567" Reachable.init)))

/-- C4 (amended): cancelling an id whose matching bookings are all
already canceled leaves the booking store and the profile store
unchanged, but still rewrites the room store with the referenced room's
status set to `Available`; the whole state is unchanged exactly when
that room's rows already read `Available`. -/
theorem C4_idempotent_cancel_amended (s : SysState) (bid : Int)
    (hex : ∃ b ∈ s.bookings, b.booking_id = bid)
    (hcan : ∀ b ∈ s.bookings, b.booking_id = bid → b.status = "canceled") :
    (cancel s bid).bookings = s.bookings ∧
      (cancel s bid).profiles = s.profiles ∧
      ∃ b0, s.bookings.find? (fun b => decide (b.booking_id = bid)) = some b0 ∧
        (cancel s bid).rooms = s.rooms.map (setAvailable b0.room_number) ∧
        ((∀ r ∈ s.rooms, r.room_number = b0.room_number → r.status = "Available") →
          cancel s bid = s) := by
  have hbk : (cancel s bid).bookings = s.bookings := by
    rw [cancel_bookings]
    have hcon : ∀ b ∈ s.bookings, markCanceled bid b = b := fun b hb =>
      markCanceled_eq_self bid b (hcan b hb)
    rw [List.map_congr_left hcon, List.map_id']
  obtain ⟨b, hb, hbid⟩ := hex
  have hfs : (s.bookings.find? (fun b => decide (b.booking_id = bid))).isSome := by
    rw [List.find?_isSome]
    exact ⟨b, hb, by simp [hbid]⟩
  obtain ⟨b0, hb0⟩ := Option.isSome_iff_exists.mp hfs
  refine ⟨hbk, cancel_profiles s bid, b0, hb0, cancel_rooms_found s bid b0 hb0, ?_⟩
  intro havail
  have hrooms : s.rooms.map (setAvailable b0.room_number) = s.rooms := by
    have hcon : ∀ r ∈ s.rooms, setAvailable b0.room_number r = r := by
      intro r hr
      rw [setAvailable]
      by_cases hrn : r.room_number = b0.room_number
      · rw [if_pos hrn]
        have hst := havail r hr hrn
        cases r
        simp only [Room.mk.injEq]
        simp_all
      · rw [if_neg hrn]
    rw [List.map_congr_left hcon, List.map_id']
  have hshape : cancel s bid =
      ⟨(cancel s bid).rooms, (cancel s bid).bookings, (cancel s bid).profiles⟩ := rfl
  rw [hshape, cancel_rooms_found s bid b0 hb0, hrooms, hbk, cancel_profiles]

/-- Witness for C4 (amended) at a concrete state holding one `Booked`
room and one already-canceled booking for it. -/
theorem C4_idempotent_cancel_amended_witness :
    (cancel canceledState 7).bookings = canceledState.bookings ∧
      (cancel canceledState 7).profiles = canceledState.profiles := by
  have h := C4_idempotent_cancel_amended canceledState 7 (by decide) (by decide)
  exact ⟨h.1, h.2.1⟩

/-- C5: Revenue aggregation.  Daily revenue is the sum of total prices
of active bookings whose booking date starts with the queried date;
weekly revenue is the same sum over active bookings whose booking-date
portion lies inclusively within the Monday–Sunday range of the queried
date's week; canceled bookings contribute to neither; the concrete
two-booking scenario yields 100 for both queries (the queries are pure
functions of the booking store and return only a number). -/
theorem C5_revenue_aggregation :
    (∀ (bs : List Booking) (d : String), d.data.length = 10 →
      calculate_daily_revenue bs d =
        ((bs.filter (fun b => decide (b.booking_date.data.take 10 = d.data) &&
          decide (b.status = "active"))).map Booking.total_price).sum) ∧
    (∀ (bs : List Booking) (d : String),
      calculate_weekly_revenue bs d =
        ((bs.filter (fun b =>
          strGe (date10 b.booking_date) (get_week_range d).1 &&
            strLe (date10 b.booking_date) (get_week_range d).2 &&
            decide (b.status = "active"))).map Booking.total_price).sum) ∧
    get_week_range ("2025-06-02") = (("2025-06-02"), ("2025-06-08")) ∧
    calculate_daily_revenue [demoBookingA, demoBookingB] ("2025-06-02") = 100 ∧
    calculate_weekly_revenue [demoBookingA, demoBookingB] ("2025-06-02") = 100 := by
  refine ⟨?_, weekly_revenue_sum, by decide, ?_, ?_⟩
  · intro bs d hlen
    rw [daily_revenue_sum]
    have hp : (fun b : Booking => strnEq10 b.booking_date d && decide (b.status = "active")) =
        (fun b : Booking => decide (b.booking_date.data.take 10 = d.data) &&
          decide (b.status = "active")) := by
      funext b
      rw [strnEq10, List.take_of_length_le (le_of_eq hlen)]
    rw [hp]
  · have hA : (strnEq10 demoBookingA.booking_date ("2025-06-02") &&
        decide (demoBookingA.status = "active")) = true := by decide
    have hB : (strnEq10 demoBookingB.booking_date ("2025-06-02") &&
        decide (demoBookingB.status = "active")) = false := by decide
    rw [daily_revenue_sum]
    simp only [List.filter_cons, List.filter_nil, hA, hB, if_true, if_false, List.map_cons,
      List.map_nil, List.sum_cons, List.sum_nil]
    norm_num [demoBookingA]
  · have hA : (strGe (date10 demoBookingA.booking_date) (get_week_range ("2025-06-02")).1 &&
        strLe (date10 demoBookingA.booking_date) (get_week_range ("2025-06-02")).2 &&
        decide (demoBookingA.status = "active")) = true := by decide
    have hB : (strGe (date10 demoBookingB.booking_date) (get_week_range ("2025-06-02")).1 &&
        strLe (date10 demoBookingB.booking_date) (get_week_range ("2025-06-02")).2 &&
        decide (demoBookingB.status = "active")) = false := by decide
    rw [weekly_revenue_sum]
    simp only [List.filter_cons, List.filter_nil, hA, hB, if_true, if_false, List.map_cons,
      List.map_nil, List.sum_cons, List.sum_nil]
    norm_num [demoBookingA]

/-- Witness for C5: the daily characterisation instantiated at the
two-booking scenario and the ten-character date `2025-06-02`. -/
theorem C5_revenue_aggregation_witness :
    calculate_daily_revenue [demoBookingA, demoBookingB] ("2025-06-02") =
      (([demoBookingA, demoBookingB].filter (fun b =>
        decide (b.booking_date.data.take 10 = ("2025-06-02" : String).data) &&
          decide (b.status = "active"))).map Booking.total_price).sum :=
  C5_revenue_aggregation.1 [demoBookingA, demoBookingB] ("2025-06-02") (by decide)

/-- C6: Normalize round trip.  A dash triple re-renders zero-padded in
the same order, a slash triple (when the dash scan fails) re-renders
reordered to `YYYY-MM-DD`, any input both scans reject yields the
`invalid` sentinel; canonical zero-padded dates round-trip unchanged,
canonical `DD/MM/YYYY` dates reorder, and the three concrete examples
hold. -/
theorem C6_normalize_round_trip :
    (∀ (input : String) (y m d : Int), scan3 '-' input = (3, y, m, d) →
      parse_date input = fmtDate y m d) ∧
    (∀ (input : String) (y m d : Int), (scan3 '-' input).1 ≠ 3 →
      scan3 '/' input = (3, d, m, y) → parse_date input = fmtDate y m d) ∧
    (∀ input : String, (scan3 '-' input).1 ≠ 3 → (scan3 '/' input).1 ≠ 3 →
      parse_date input = "invalid") ∧
    (∀ y m d : Nat, parse_date (fmtDate (y : Int) (m : Int) (d : Int)) =
      fmtDate (y : Int) (m : Int) (d : Int)) ∧
    (∀ y m d : Nat, parse_date (fmtSlashDate (d : Int) (m : Int) (y : Int)) =
      fmtDate (y : Int) (m : Int) (d : Int)) ∧
    parse_date ("2025-03-10") = "2025-03-10" ∧
    parse_date ("10/03/2025") = "2025-03-10" ∧
    parse_date ("not-a-date") = "invalid" :=
  ⟨parse_date_dash_triple, parse_date_slash_triple, parse_date_no_triple,
    parse_date_fmtDate, parse_date_fmtSlash, by decide, by decide, by decide⟩

/-- Witness for C6: the dash-triple case applied to a non-padded date,
and the canonical round trip at 1999-12-31. -/
theorem C6_normalize_round_trip_witness :
    parse_date ("2025-3-1") = fmtDate 2025 3 1 ∧
      parse_date (fmtDate (((1999 : Nat)) : Int) (((12 : Nat)) : Int) (((31 : Nat)) : Int)) =
        fmtDate (((1999 : Nat)) : Int) (((12 : Nat)) : Int) (((31 : Nat)) : Int) :=
  ⟨C6_normalize_round_trip.1 ("2025-3-1") 2025 3 1 (by decide),
   C6_normalize_round_trip.2.2.2.1 1999 12 31⟩

/-- C7: Night count and total price.  For valid zero-padded dates with
`check_in < check_out`, the night count equals the proleptic-Gregorian
calendar-day difference of the two dates (in particular
`nights_between("2025-03-10","2025-03-12") = 2`), and every successful
booking for a room present in the room store records a total price equal
to that room's nightly price times the night count. -/
theorem C7_nights_and_total_price :
    (∀ y1 m1 d1 y2 m2 d2 : Nat, 2024 ≤ y1 → 1 ≤ m1 → m1 ≤ 12 → 1 ≤ d1 → d1 ≤ 31 →
      2024 ≤ y2 → 1 ≤ m2 → m2 ≤ 12 → 1 ≤ d2 → d2 ≤ 31 →
      strGe (fmtDate (y1 : Int) (m1 : Int) (d1 : Int)) (fmtDate (y2 : Int) (m2 : Int) (d2 : Int)) = false →
      calculate_duration (fmtDate (y1 : Int) (m1 : Int) (d1 : Int))
          (fmtDate (y2 : Int) (m2 : Int) (d2 : Int)) =
        daysFromCivil (y2 : Int) (m2 : Int) (d2 : Int) -
          daysFromCivil (y1 : Int) (m1 : Int) (d1 : Int)) ∧
    calculate_duration ("2025-03-10") ("2025-03-12") = 2 ∧
    (∀ (s : SysState) (u : String) (rn : Int) (ci co today nowStr : String) (bid : Int) (p : ℚ)
      (bid2 n : Int) (t : ℚ),
      findRoomPrice s.rooms rn = some p →
      (book s u rn ci co today nowStr bid).1 = .success bid2 n t →
      n = calculate_duration (parse_date ci) (parse_date co) ∧
        t = p * ((n : Int) : ℚ) ∧
        (book s u rn ci co today nowStr bid).2.bookings =
          s.bookings ++ [⟨u, rn, nowStr, parse_date ci, parse_date co, t, "active", bid⟩]) := by
  refine ⟨?_, by decide, ?_⟩
  · intro y1 m1 d1 y2 m2 d2 _ hm1 hm1' _ _ _ hm2 hm2' _ _ _
    exact duration_eq_day_diff y1 m1 d1 y2 m2 d2 hm1 hm1' hm2 hm2'
  · intro s u rn ci co today nowStr bid p bid2 n t hp hsucc
    obtain ⟨hn, ht, hbk⟩ := book_success_price s u rn ci co today nowStr bid p hp bid2 n t hsucc
    refine ⟨hn, ?_, hbk⟩
    rw [ht, hn]

/-- Witness for C7: the day-difference form at 2025-03-10 → 2025-03-12,
and the successful concrete booking of room 101 (price 100) for two
nights recording a 100 × 2 total. -/
theorem C7_nights_and_total_price_witness :
    (calculate_duration (fmtDate (((2025 : Nat)) : Int) (((3 : Nat)) : Int) (((10 : Nat)) : Int))
        (fmtDate (((2025 : Nat)) : Int) (((3 : Nat)) : Int) (((12 : Nat)) : Int)) =
      daysFromCivil (((2025 : Nat)) : Int) (((3 : Nat)) : Int) (((12 : Nat)) : Int) -
        daysFromCivil (((2025 : Nat)) : Int) (((3 : Nat)) : Int) (((10 : Nat)) : Int)) ∧
      ((2 : Int) = calculate_duration (parse_date ("2025-06-01")) (parse_date ("2025-06-03")) ∧
        (100 : ℚ) * (((2 : Int)) : ℚ) = 100 * (((2 : Int)) : ℚ) ∧
        (book demoState "alice" 101 ("2025-06-01") ("2025-06-03") ("2025-05-01")
            ("2025-05-01 10:00:00") 7).2.bookings =
          demoState.bookings ++
            [⟨"alice", 101, ("2025-05-01 10:00:00"), parse_date ("2025-06-01"),
              parse_date ("2025-06-03"), 100 * (((2 : Int)) : ℚ), "active", 7⟩]) := by
  constructor
  · exact C7_nights_and_total_price.1 2025 3 10 2025 3 12 (by omega) (by omega) (by omega)
      (by omega) (by omega) (by omega) (by omega) (by omega) (by omega) (by omega) (by decide)
  · exact C7_nights_and_total_price.2.2 demoState "alice" 101 ("2025-06-01") ("2025-06-03")
      ("2025-05-01") ("2025-05-01 10:00:00") 7 100 7 2 (100 * (((2 : Int)) : ℚ)) rfl rfl

/-- C9: Availability is independent of the stored room status field.
The availability query is a function of the booking store alone, and the
booking outcome is unchanged between any two states that agree on
bookings and profiles and whose room rows agree on number and price
while their status (and other display) fields differ arbitrarily — in
particular a room whose status reads `Booked` can still be booked for a
non-overlapping window. -/
theorem C9_availability_ignores_room_status :
    (∀ s1 s2 : SysState, s1.bookings = s2.bookings →
      ∀ (rn : Int) (ci co : String), availQuery s1 rn ci co = availQuery s2 rn ci co) ∧
    (∀ (r1 r2 : List Room) (bk : List Booking) (pf : List Profile),
      List.Forall₂ (fun a b => a.room_number = b.room_number ∧ a.price = b.price) r1 r2 →
      ∀ (u : String) (rn : Int) (ci co today nowStr : String) (bid : Int),
        (book ⟨r1, bk, pf⟩ u rn ci co today nowStr bid).1 =
          (book ⟨r2, bk, pf⟩ u rn ci co today nowStr bid).1) := by
  constructor
  · intro s1 s2 h rn ci co
    rw [availQuery, availQuery, h]
  · intro r1 r2 bk pf hr u rn ci co today nowStr bid
    exact book_fst_rooms_status_irrelevant r1 r2 bk pf hr u rn ci co today nowStr bid

/-- Witness for C9: one state with room 101 `Available` and one with it
`Booked` produce the same booking outcome, and the `Booked` state's
outcome is a success. -/
theorem C9_availability_ignores_room_status_witness :
    (book stW1 "alice" 101 ("2025-06-01") ("2025-06-03") ("2025-05-01")
        ("2025-05-01 10:00:00") 7).1 =
      (book stW2 "alice" 101 ("2025-06-01") ("2025-06-03") ("2025-05-01")
        ("2025-05-01 10:00:00") 7).1 ∧
      (book stW2 "alice" 101 ("2025-06-01") ("2025-06-03") ("2025-05-01")
        ("2025-05-01 10:00:00") 7).1.isFailure = false :=
  ⟨C9_availability_ignores_room_status.2
     [⟨101, "Single", 100, "Available", "WiFi,TV,AC"⟩]
     [⟨101, "Single", 100, "Booked", "WiFi,TV,AC"⟩] [] [profAlice]
     (List.Forall₂.cons ⟨rfl, rfl⟩ List.Forall₂.nil)
     "alice" 101 ("2025-06-01") ("2025-06-03") ("2025-05-01") ("2025-05-01 10:00:00") 7,
   rfl⟩

/-- C10: No calendar-range validation on the booking path.  The
out-of-range date `2025-13-40` normalizes to itself (not the `invalid`
sentinel) although the unused range check `validate_date` rejects it,
and a booking request with such dates passes the date-format check and
succeeds end to end, recording one night at the room's full price. -/
theorem C10_no_range_validation :
    parse_date ("2025-13-40") = "2025-13-40" ∧
    validate_date ("2025-13-40") = false ∧
    validate_date ("2025-13-41") = false ∧
    (book demoState "alice" 101 ("2025-13-40") ("2025-13-41") ("2025-06-01")
        ("2025-06-01 12:00:00") 1).1 = .success 1 1 (100 * (((1 : Int)) : ℚ)) ∧
    (100 : ℚ) * (((1 : Int)) : ℚ) = 100 :=
  ⟨by decide, by decide, by decide, rfl, by norm_num⟩

end Hotel
